import Mathlib

/-
Verification development for the openauth authentication core.

The definitions below are a shallow embedding of the Go sources:
  * `OpenAuth.Crypto`  embeds `pkg/crypto` (the PBKDF2 password hasher):
    byte strings are modelled as `List Nat` (Go strings are byte slices),
    the HMAC-SHA-256 compression function is an explicit function
    parameter (the engine only relies on it being a function with
    32-byte output of bytes), randomness (`rand.Read`) is modelled by
    passing the sampled salt as an argument, and machine integers are
    `Int`/`Nat`.
  * `OpenAuth.Storage` embeds the record types and the default
    persistence-policy matrix of `pkg/storage`.
  * `OpenAuth.Engine`  embeds the `AuthService.Authorize` /
    `AuthService.CreateAuth` control flow of the engine, with the
    storage, hasher and authorization collaborators given as oracle
    functions, store contents as explicit state, wall-clock time as an
    explicit `Int` parameter and the collaborator invocations recorded
    as an effect trace.
  * `OpenAuth.MemCache` embeds the in-memory cache adapter of
    `pkg/cache/memory`, with the Go maps modelled as association lists.
-/

deriving instance DecidableEq for Except

namespace OpenAuth

namespace Crypto

/-- Byte strings: Go `string` / `[]byte` values, one `Nat` per byte. -/
abbrev Str := List Nat

/-- The byte value of the field delimiter character used by the encoded
hash format (the dollar sign). -/
def dollar : Nat := 36

/-- Errors of the `crypto` package (`ErrInvalidHash`, `ErrInvalidConfig`). -/
inductive CryptoErr where
  | invalidHash
  | invalidConfig
  deriving DecidableEq, Repr

/-- The bytes of the scheme tag string `pbkdf2`. -/
def encodingScheme : Str := [112, 98, 107, 100, 102, 50]

/-- The bytes of the hash-function tag string `sha256`. -/
def hashFunction : Str := [115, 104, 97, 50, 53, 54]

/-- `PBKDF2Options`: iteration count, salt length and derived-key length. -/
structure PBKDF2Options where
  iterations : Int
  saltBytes : Int
  keyBytes : Int
  deriving DecidableEq, Repr

/-- `DefaultPBKDF2Options`. -/
def defaultPBKDF2Options : PBKDF2Options :=
  { iterations := 120000, saltBytes := 16, keyBytes := 32 }

/-- `NewPBKDF2Hasher`: non-positive option fields are replaced by the
defaults. -/
def newPBKDF2Hasher (options : PBKDF2Options) : PBKDF2Options :=
  let defaults := defaultPBKDF2Options
  { iterations := if options.iterations ≤ 0 then defaults.iterations else options.iterations
    saltBytes := if options.saltBytes ≤ 0 then defaults.saltBytes else options.saltBytes
    keyBytes := if options.keyBytes ≤ 0 then defaults.keyBytes else options.keyBytes }

/-- The base64 alphabet of `encoding/base64` (standard encoding), as
byte values: `A`-`Z`, `a`-`z`, `0`-`9`, `+`, `/`. -/
def b64Alphabet : List Nat :=
  [65, 66, 67, 68, 69, 70, 71, 72, 73, 74, 75, 76, 77, 78, 79, 80,
   81, 82, 83, 84, 85, 86, 87, 88, 89, 90,
   97, 98, 99, 100, 101, 102, 103, 104, 105, 106, 107, 108, 109, 110,
   111, 112, 113, 114, 115, 116, 117, 118, 119, 120, 121, 122,
   48, 49, 50, 51, 52, 53, 54, 55, 56, 57, 43, 47]

/-- The alphabet byte for a 6-bit value. -/
def b64Char (v : Nat) : Nat := b64Alphabet.getD v 0

/-- The 6-bit value of an alphabet byte, `none` for a byte outside the
alphabet (decode-side character lookup). -/
def b64Index (c : Nat) : Option Nat := b64Alphabet.indexOf? c

/-- `base64.RawStdEncoding.EncodeToString`: unpadded standard base64 of
a byte string, three input bytes per four output characters. -/
def b64Encode : Str → Str
  | [] => []
  | [b0] => [b64Char (b0 / 4), b64Char (b0 % 4 * 16)]
  | [b0, b1] => [b64Char (b0 / 4), b64Char (b0 % 4 * 16 + b1 / 16), b64Char (b1 % 16 * 4)]
  | b0 :: b1 :: b2 :: rest =>
    b64Char (b0 / 4) :: b64Char (b0 % 4 * 16 + b1 / 16) ::
    b64Char (b1 % 16 * 4 + b2 / 64) :: b64Char (b2 % 64) :: b64Encode rest

/-- `base64.RawStdEncoding.DecodeString`: inverse of `b64Encode`;
`none` on a character outside the alphabet or an impossible length. -/
def b64Decode : Str → Option Str
  | [] => some []
  | [_] => none
  | [c0, c1] => do
    let v0 ← b64Index c0
    let v1 ← b64Index c1
    some [v0 * 4 + v1 / 16]
  | [c0, c1, c2] => do
    let v0 ← b64Index c0
    let v1 ← b64Index c1
    let v2 ← b64Index c2
    some [v0 * 4 + v1 / 16, v1 % 16 * 16 + v2 / 4]
  | c0 :: c1 :: c2 :: c3 :: rest => do
    let v0 ← b64Index c0
    let v1 ← b64Index c1
    let v2 ← b64Index c2
    let v3 ← b64Index c3
    let tail ← b64Decode rest
    some ((v0 * 4 + v1 / 16) :: (v1 % 16 * 16 + v2 / 4) :: (v2 % 4 * 64 + v3) :: tail)

/-- `strings.Split(s, "$")`: the fields of `s` delimited by the dollar
byte; always returns at least one (possibly empty) field. -/
def splitOnDollar : Str → List Str
  | [] => [[]]
  | c :: rest =>
    match splitOnDollar rest with
    | [] => [[]]
    | g :: gs => if c = dollar then [] :: g :: gs else (c :: g) :: gs

/-- Decimal printing of a natural number (the `%d` verb for a
non-negative value). -/
def printNat (n : Nat) : Str :=
  if n = 0 then [48] else (Nat.digits 10 n).reverse.map (fun d => 48 + d)

/-- Decimal printing of an `int` (the `%d` verb). -/
def printInt (i : Int) : Str :=
  if i < 0 then 45 :: printNat i.natAbs else printNat i.toNat

/-- Whether a byte is an ASCII decimal digit. -/
def isDigitByte (c : Nat) : Bool := 48 ≤ c && c ≤ 57

/-- The value of a non-empty all-digit byte string, `none` otherwise. -/
def parseDigits (s : Str) : Option Nat :=
  if s ≠ [] ∧ s.all isDigitByte then
    some (s.foldl (fun a c => a * 10 + (c - 48)) 0)
  else none

/-- `strconv.Atoi`: an optional `+`/`-` sign followed by at least one
decimal digit; `none` otherwise (overflow is not modelled: the
embedding uses unbounded integers). -/
def atoi (s : Str) : Option Int :=
  match s with
  | [] => none
  | c :: rest =>
    if c = 43 then (parseDigits rest).map (fun n => (n : Int))
    else if c = 45 then (parseDigits rest).map (fun n => -(n : Int))
    else (parseDigits s).map (fun n => (n : Int))

/-- The big-endian four-byte encoding of the block counter
(`binary.BigEndian.PutUint32`). -/
def beUint32 (n : Nat) : Str :=
  [n / 2 ^ 24 % 256, n / 2 ^ 16 % 256, n / 2 ^ 8 % 256, n % 256]

/-- Byte-wise XOR of two equal-length byte strings (the `t[x] ^= u[x]`
loop). -/
def xorBytes (a b : Str) : Str := List.zipWith Nat.xor a b

/-- The inner PBKDF2 loop: starting from `u`, `k` further HMAC
applications, XOR-accumulated into `t`. -/
def iterateXor (hmac : Str → Str → Str) (password : Str) : Nat → Str → Str → Str
  | 0, _, t => t
  | k + 1, u, t =>
    let u' := hmac password u
    iterateXor hmac password k u' (xorBytes t u')

/-- One PBKDF2 block: `U1 = HMAC(password, salt || BE32(block))`, then
`iterations - 1` further applications XORed together. -/
def pbkdf2Block (hmac : Str → Str → Str) (password salt : Str) (iterations : Int) (block : Nat) : Str :=
  let u := hmac password (salt ++ beUint32 block)
  iterateXor hmac password (iterations - 1).toNat u u

/-- `pbkdf2SHA256`: the PBKDF2 key-derivation loop over an HMAC
compression function (`hmacSHA256` in the source, here a parameter),
producing `keyLen` bytes. -/
def pbkdf2SHA256 (hmac : Str → Str → Str) (password salt : Str) (iterations : Int) (keyLen : Nat) : Str :=
  let hashLen := 32
  let blockCount := (keyLen + hashLen - 1) / hashLen
  (((List.range blockCount).map (fun i => pbkdf2Block hmac password salt iterations (i + 1))).flatten).take keyLen

/-- `subtle.ConstantTimeCompare`: `1` when the two byte strings have
equal length and contents, `0` otherwise (the OR-accumulated XOR of the
byte pairs). -/
def constantTimeCompare (x y : Str) : Nat :=
  if x.length = y.length then
    if (List.zipWith Nat.xor x y).foldl Nat.lor 0 = 0 then 1 else 0
  else 0

/-- `PBKDF2Hasher.Hash`: reject an empty secret as a configuration
error, otherwise derive a key from the sampled `salt` and emit the
five-field `scheme$hash$iterations$salt$key` encoding. The sampled
randomness (`rand.Read`) is the `salt` argument; a nil receiver cannot
arise because the hasher is modelled by its option values. -/
def Hash (hmac : Str → Str → Str) (options : PBKDF2Options) (password salt : Str) : Except CryptoErr Str :=
  if password = [] then .error .invalidConfig
  else
    let derived := pbkdf2SHA256 hmac password salt options.iterations options.keyBytes.toNat
    .ok (encodingScheme ++ dollar :: hashFunction ++ dollar :: printInt options.iterations ++
      dollar :: b64Encode salt ++ dollar :: b64Encode derived)

/-- `parseEncodedHash`: exactly five dollar-delimited fields, a
parsable positive iteration count, and non-empty base64 salt and
derived key; `ErrInvalidHash` otherwise. -/
def parseEncodedHash (encodedHash : Str) : Except CryptoErr (Str × Str × Int × Str × Str) :=
  match splitOnDollar encodedHash with
  | [p0, p1, p2, p3, p4] =>
    match atoi p2 with
    | none => .error .invalidHash
    | some iterations =>
      if iterations ≤ 0 then .error .invalidHash
      else
        match b64Decode p3 with
        | none => .error .invalidHash
        | some salt =>
          if salt = [] then .error .invalidHash
          else
            match b64Decode p4 with
            | none => .error .invalidHash
            | some derived =>
              if derived = [] then .error .invalidHash
              else .ok (p0, p1, iterations, salt, derived)
  | _ => .error .invalidHash

/-- `PBKDF2Hasher.Verify`: reject an empty secret as a configuration
error, parse the encoding, check the scheme and hash-function tags,
re-derive with the encoded parameters and compare in constant time. -/
def Verify (hmac : Str → Str → Str) (password encodedHash : Str) : Except CryptoErr Bool :=
  if password = [] then .error .invalidConfig
  else
    match parseEncodedHash encodedHash with
    | .error e => .error e
    | .ok (scheme, hashFn, iterations, salt, expected) =>
      if scheme ≠ encodingScheme ∨ hashFn ≠ hashFunction then .error .invalidHash
      else
        .ok (constantTimeCompare (pbkdf2SHA256 hmac password salt iterations expected.length) expected == 1)

end Crypto

namespace Storage

open Crypto (Str CryptoErr)

/-- `AuthMaterialType` (`pkg/storage/interfaces.go`). -/
inductive AuthMaterialType where
  | password
  | accessToken
  | refreshToken
  | apiKey
  | clientSecret
  deriving DecidableEq, Repr

/-- The status of an `AuthRecord` (`active|inactive|revoked|expired`;
the declaration itself is outside the extracted sources, its values are
fixed by the engine's use of `StatusActive`/`StatusExpired` and by the
data model). -/
inductive AuthStatus where
  | active
  | inactive
  | revoked
  | expired
  deriving DecidableEq, Repr

/-- `AuthRecord`: identity-independent credential material. Timestamps
are instants (`Int`); the hash is a byte string. -/
structure AuthRecord where
  id : String
  status : AuthStatus
  dateAdded : Int
  dateModified : Option Int := none
  materialType : AuthMaterialType
  materialHash : Str
  tokenFormat : Option String := none
  tokenUse : Option String := none
  expiresAt : Option Int
  revokedAt : Option Int := none
  metadata : List (String × String)
  deriving DecidableEq, Repr

/-- `SubjectAuthRecord`: the linkage binding a Subject to one
`AuthRecord` id. -/
structure SubjectAuthRecord where
  id : String
  dateAdded : Int
  subject : String
  authID : String
  deriving DecidableEq, Repr

/-- `AuthLogEvent` (`used|validated|revoked`). -/
inductive AuthLogEvent where
  | used
  | validated
  | revoked
  deriving DecidableEq, Repr

/-- `AuthLogRecord`: an append-only audit event. -/
structure AuthLogRecord where
  id : String
  dateAdded : Int
  authID : String
  subject : String
  event : AuthLogEvent
  occurredAt : Int
  metadata : List (String × String) := []
  deriving DecidableEq, Repr

/-- `RoleRecord`: the role mask of a (Subject, Tenant) pair. -/
structure RoleRecord where
  subject : String
  tenant : String
  roleMask : Nat
  deriving DecidableEq, Repr

/-- `PermissionRecord`: the permission mask of a (Subject, Tenant)
pair. -/
structure PermissionRecord where
  subject : String
  tenant : String
  permissionMask : Nat
  deriving DecidableEq, Repr

/-- `Authority` (`pkg/storage/policy.go`). -/
inductive Authority where
  | sourceOfTruth
  | external
  | selfContained
  deriving DecidableEq, Repr

/-- `CacheRole`. -/
inductive CacheRole where
  | none
  | readThrough
  | introspection
  deriving DecidableEq, Repr

/-- `FailureMode`. -/
inductive FailureMode where
  | failClosed
  | failOpen
  deriving DecidableEq, Repr

/-- `AuthProfile`: the seven named auth profiles. -/
inductive AuthProfile where
  | passwordBasic
  | refreshRotating
  | accessOpaqueLocal
  | accessOpaqueRemote
  | accessJWT
  | apiKey
  | clientSecret
  deriving DecidableEq, Repr

/-- `PersistencePolicy`: per-profile storage/cache/failure behaviour.
`tokenFormat`/`tokenUse` are the Go string fields (empty when unset);
`maxCacheTTL` is in nanoseconds (`time.Duration`). -/
structure PersistencePolicy where
  materialType : AuthMaterialType
  tokenFormat : String := ""
  tokenUse : String := ""
  authority : Authority
  cacheRole : CacheRole
  persistInSourceOfTruth : Bool
  allowNonExpiring : Bool
  maxCacheTTL : Int := 0
  failureMode : FailureMode
  deriving DecidableEq, Repr

/-- `DefaultPersistencePolicies`: the static map from profile to
policy (`pkg/storage/policy.go`). -/
def defaultPersistencePolicies (profile : AuthProfile) : Option PersistencePolicy :=
  match profile with
  | .passwordBasic => some
    { materialType := .password, authority := .sourceOfTruth, cacheRole := .none,
      persistInSourceOfTruth := true, allowNonExpiring := false, failureMode := .failClosed }
  | .refreshRotating => some
    { materialType := .refreshToken, tokenFormat := "opaque", tokenUse := "refresh",
      authority := .sourceOfTruth, cacheRole := .readThrough, persistInSourceOfTruth := true,
      allowNonExpiring := false, maxCacheTTL := 120000000000, failureMode := .failClosed }
  | .accessOpaqueLocal => some
    { materialType := .accessToken, tokenFormat := "opaque", tokenUse := "access",
      authority := .sourceOfTruth, cacheRole := .readThrough, persistInSourceOfTruth := true,
      allowNonExpiring := false, maxCacheTTL := 300000000000, failureMode := .failClosed }
  | .accessOpaqueRemote => some
    { materialType := .accessToken, tokenFormat := "opaque", tokenUse := "access",
      authority := .external, cacheRole := .introspection, persistInSourceOfTruth := false,
      allowNonExpiring := false, maxCacheTTL := 60000000000, failureMode := .failClosed }
  | .accessJWT => some
    { materialType := .accessToken, tokenFormat := "jwt", tokenUse := "access",
      authority := .selfContained, cacheRole := .none, persistInSourceOfTruth := false,
      allowNonExpiring := false, failureMode := .failClosed }
  | .apiKey => some
    { materialType := .apiKey, authority := .sourceOfTruth, cacheRole := .readThrough,
      persistInSourceOfTruth := true, allowNonExpiring := true, maxCacheTTL := 900000000000,
      failureMode := .failClosed }
  | .clientSecret => some
    { materialType := .clientSecret, authority := .sourceOfTruth, cacheRole := .none,
      persistInSourceOfTruth := true, allowNonExpiring := false, failureMode := .failClosed }

end Storage

namespace Engine

open Crypto (Str CryptoErr)
open Storage

/-- `errors.Code`: the error taxonomy of `pkg/errors`. -/
inductive ErrCode where
  | invalidCredentials
  | invalidToken
  | credentialsExpired
  | permissionDenied
  | unauthenticated
  | notFound
  | unknown
  | storageUnavailable
  | notImplemented
  deriving DecidableEq, Repr

/-- The wrapped cause of an engine error: a storage-adapter error
(opaque token), a crypto-package error, or an already-classified engine
error flattened to its code and message (one level of wrapping suffices
for the modelled paths). -/
inductive ErrCause where
  | store (k : Nat)
  | crypto (e : CryptoErr)
  | app (code : ErrCode) (message : String)
  deriving DecidableEq, Repr

/-- `errors.Error`: a typed engine error — its kind, message, and
optional wrapped cause (`errors.New` leaves the cause empty,
`errors.Wrap` records it). -/
structure OAError where
  code : ErrCode
  message : String
  cause : Option ErrCause := none
  deriving DecidableEq, Repr

/-- `Principal`: the authentication result. `Claims` is omitted: the
engine always returns it unset. -/
structure Principal where
  subject : String
  tenant : String
  roleMask : Nat
  permissionMask : Nat
  authenticatedAt : Int
  deriving DecidableEq, Repr

/-- `AuthInput`: the `Authorize` request. The input type is the raw
string of the Go `InputType`. -/
structure AuthInput where
  userID : String
  inputType : String
  value : Str
  metadata : List (String × String) := []
  deriving DecidableEq, Repr

/-- `AuthInput.GetMaterialType` (`contracts.go`): `password` maps to
the password material type; `token` (unimplemented) and every other
input type map to the empty sentinel, modelled as `none`. -/
def getMaterialType (inputType : String) : Option AuthMaterialType :=
  if inputType = "password" then some .password
  else if inputType = "token" then none
  else none

/-- A collaborator invocation observed during `Authorize`: the storage
reads, the best-effort writes, the hasher call, and the (never issued)
role/permission lookups. -/
inductive Effect where
  | listCall (subject : String)
  | getAuthsCall (ids : List String)
  | putAuthCall (record : AuthRecord)
  | verifyCall (value hash : Str)
  | putAuthLogCall (record : AuthLogRecord)
  | getRoleCall (subject tenant : String)
  | getPermissionCall (subject tenant : String)
  deriving DecidableEq, Repr

/-- The collaborators and ambient state of one `Authorize` call: the
configured-or-nil flags of the stores and hasher, the store and hasher
results as oracle functions, the current UTC instant, and the UUID
drawn for the audit-log record. The role/permission oracles are carried
so that their (non-)use by the engine is expressible. -/
structure AuthorizeEnv where
  authConfigured : Bool
  subjectAuthConfigured : Bool
  hasherConfigured : Bool
  roleConfigured : Bool
  permConfigured : Bool
  authLogConfigured : Bool
  listSubjectAuth : String → Except Nat (List SubjectAuthRecord)
  getAuths : List String → Except Nat (List AuthRecord)
  verify : Str → Str → Except CryptoErr Bool
  getRole : String → String → Except Nat RoleRecord
  getPermission : String → String → Except Nat PermissionRecord
  now : Int
  logUUID : String

/-- The verification tail of `Authorize` (the `switch materialType`
over the selected, unexpired record through the returned `Principal`):
the hasher call, its error wrapped as invalid credentials, the
best-effort `used` audit-log append, and the result with tenant
`default` — the role/permission lookup of the source is commented out,
so the masks stay zero and no role/permission call is issued. -/
def authorizeVerify (env : AuthorizeEnv) (input : AuthInput) (mt : AuthMaterialType)
    (record : AuthRecord) (eff0 : List Effect) : Except OAError Principal × List Effect :=
  match mt with
  | .password =>
    match env.verify input.value record.materialHash with
    | .error ve =>
      (.error ⟨.invalidCredentials, "unable to verify credentials", some (.crypto ve)⟩,
        eff0 ++ [.verifyCall input.value record.materialHash])
    | .ok false =>
      (.error ⟨.invalidCredentials, "authentication failed", none⟩,
        eff0 ++ [.verifyCall input.value record.materialHash])
    | .ok true =>
      let logEffects :=
        if env.authLogConfigured then
          [Effect.putAuthLogCall
            { id := env.logUUID, dateAdded := env.now, authID := record.id,
              subject := input.userID, event := .used, occurredAt := env.now }]
        else []
      (.ok { subject := input.userID, tenant := "default", roleMask := 0,
             permissionMask := 0, authenticatedAt := env.now },
        eff0 ++ [Effect.verifyCall input.value record.materialHash] ++ logEffects)
  | _ => (.error ⟨.notImplemented, "auth input type is not implemented", none⟩, eff0)

/-- `AuthService.Authorize` (the engine entrypoint): configuration
checks, linkage listing, linkage-subject integrity check, bulk record
fetch, material-type mapping, selection of the first active record of
the type, expiry handling with a best-effort status flip, then the
verification tail. -/
def authorize (env : AuthorizeEnv) (input : AuthInput) : Except OAError Principal × List Effect :=
  if ¬(env.authConfigured && env.subjectAuthConfigured) then
    (.error ⟨.storageUnavailable, "auth storage is not configured", none⟩, [])
  else if ¬env.hasherConfigured then
    (.error ⟨.unknown, "hasher is not configured", none⟩, [])
  else if ¬(env.roleConfigured && env.permConfigured) then
    (.error ⟨.storageUnavailable, "authorization storage is not configured", none⟩, [])
  else
    match env.listSubjectAuth input.userID with
    | .error k =>
      (.error ⟨.storageUnavailable, "failed to lookup subject auth records", some (.store k)⟩,
        [.listCall input.userID])
    | .ok subjects =>
      if subjects.length < 1 then
        (.error ⟨.notFound, "user_id not found", none⟩, [.listCall input.userID])
      else
        match subjects.find? (fun s => s.subject != input.userID) with
        | some _ =>
          (.error ⟨.invalidCredentials, "multiple auth records found for different user_ids", none⟩,
            [.listCall input.userID])
        | none =>
          let authIds := subjects.map (·.authID)
          match env.getAuths authIds with
          | .error k =>
            (.error ⟨.storageUnavailable, "failed to retrieve auth records", some (.store k)⟩,
              [.listCall input.userID, .getAuthsCall authIds])
          | .ok records =>
            let eff0 := [Effect.listCall input.userID, Effect.getAuthsCall authIds]
            match getMaterialType input.inputType with
            | none =>
              (.error ⟨.invalidCredentials, "unsupported auth input type", none⟩, eff0)
            | some mt =>
              match records.find? (fun r => r.materialType == mt && r.status == .active) with
              | none =>
                (.error ⟨.invalidCredentials, "no valid input auth record found for user_id", none⟩, eff0)
              | some record =>
                match record.expiresAt with
                | some exp =>
                  if exp < env.now then
                    (.error ⟨.credentialsExpired, "credentials have expired", none⟩,
                      eff0 ++ [.putAuthCall { record with status := AuthStatus.expired }])
                  else authorizeVerify env input mt record eff0
                | none => authorizeVerify env input mt record eff0

/-- `CreateAuthInput`: the `CreateAuth` request. The secret value is a
byte string; the optional expiry is an instant. -/
structure CreateAuthInput where
  userID : String
  value : Str
  expiresAt : Option Int
  metadata : List (String × String) := []
  deriving DecidableEq, Repr

/-- Whether a byte is ASCII whitespace (the trimming class of
`strings.TrimSpace`, restricted to the ASCII cut set). -/
def isSpaceByte (c : Nat) : Bool := c = 32 || c = 9 || c = 10 || c = 13 || c = 11 || c = 12

/-- Leading/trailing-whitespace trimming of a byte string
(`strings.TrimSpace` on the secret value). -/
def trimBytes (s : Str) : Str :=
  ((s.dropWhile isSpaceByte).reverse.dropWhile isSpaceByte).reverse

/-- Leading/trailing-whitespace trimming of an identifier
(`strings.TrimSpace` on the subject identifier). -/
def trimString (s : String) : String :=
  ⟨((s.data.dropWhile Char.isWhitespace).reverse.dropWhile Char.isWhitespace).reverse⟩

/-- `CreateAuthInput.Normalize` (`contracts.go`): trim identifier and
value; keep the expiry only when it is strictly in the future, drop it
otherwise. `now` is the instant `time.Now().UTC()` observed by the
call. -/
def normalizeCreate (now : Int) (a : CreateAuthInput) : CreateAuthInput :=
  { userID := trimString a.userID
    value := trimBytes a.value
    expiresAt :=
      match a.expiresAt with
      | some exp => if now < exp then some exp else none
      | none => none
    metadata := a.metadata }

/-- Modelled from the spec: `CreateAuthInput.Validate` is invoked by
`CreateAuth` but its definition is outside the extracted sources.
Following §4.5 step 2 of the spec, identifier and value must be
non-empty after trimming, otherwise a validation error (classified
under the catch-all `unknown` kind of §7). -/
def validateCreate (a : CreateAuthInput) : Except OAError Unit :=
  if a.userID = "" ∨ a.value = [] then
    .error ⟨.unknown, "user_id and value are required", none⟩
  else .ok ()

/-- The visible contents of the backing store: the three tables written
by `CreateAuth`. -/
structure DB where
  auths : List AuthRecord
  subjectAuths : List SubjectAuthRecord
  authLogs : List AuthLogRecord
  deriving DecidableEq, Repr

/-- The empty store. -/
def emptyDB : DB := { auths := [], subjectAuths := [], authLogs := [] }

/-- Injected adapter outcomes for the write operations of one
`CreateAuth` call: `none` makes the write succeed, `some k` makes it
fail with the opaque adapter error `k`. -/
structure StoreFaults where
  putAuthErr : Option Nat := none
  putSubjectAuthErr : Option Nat := none
  putAuthLogErr : Option Nat := none
  deleteAuthErr : Option Nat := none
  deriving DecidableEq, Repr

/-- `AuthStore.PutAuth` against the modelled store: append the record,
or fail leaving the store unchanged. -/
def putAuthOp (fault : Option Nat) (db : DB) (r : AuthRecord) : Except Nat Unit × DB :=
  match fault with
  | some k => (.error k, db)
  | none => (.ok (), { db with auths := db.auths ++ [r] })

/-- `SubjectAuthStore.PutSubjectAuth` against the modelled store. -/
def putSubjectAuthOp (fault : Option Nat) (db : DB) (r : SubjectAuthRecord) : Except Nat Unit × DB :=
  match fault with
  | some k => (.error k, db)
  | none => (.ok (), { db with subjectAuths := db.subjectAuths ++ [r] })

/-- `AuthLogStore.PutAuthLog` against the modelled store. -/
def putAuthLogOp (fault : Option Nat) (db : DB) (r : AuthLogRecord) : Except Nat Unit × DB :=
  match fault with
  | some k => (.error k, db)
  | none => (.ok (), { db with authLogs := db.authLogs ++ [r] })

/-- `AuthStore.DeleteAuth` against the modelled store: remove the rows
with the given id, or fail leaving the store unchanged. -/
def deleteAuthOp (fault : Option Nat) (db : DB) (id : String) : Except Nat Unit × DB :=
  match fault with
  | some k => (.error k, db)
  | none => (.ok (), { db with auths := db.auths.filter (fun r => r.id != id) })

/-- The collaborators and ambient state of one `CreateAuth` call:
configuration flags, the hasher oracle, the transactional-capability
flag with injected begin/commit outcomes, the injected write outcomes,
the current instant and the three drawn UUIDs. -/
structure CreateEnv where
  authConfigured : Bool
  subjectAuthConfigured : Bool
  hasherConfigured : Bool
  authLogConfigured : Bool
  hashFn : Str → Except CryptoErr Str
  hasTransactor : Bool
  beginErr : Option Nat := none
  commitErr : Option Nat := none
  faults : StoreFaults
  now : Int
  authID : String
  subjectAuthID : String
  logID : String

/-- `AuthService.createAuthWithStores`: write the AuthMaterial record,
then the SubjectAuth linkage — on its failure, compensate with a
best-effort delete of the just-created record when not inside a
transaction (a compensation failure is only logged) and return the
linkage error wrapping the adapter cause — then the best-effort
`validated` audit-log append, whose failure is only logged. -/
def createAuthWithStores (env : CreateEnv) (db : DB) (userID : String) (materialHash : Str)
    (expiresAt : Option Int) (metadata : List (String × String)) (transactional : Bool) :
    Except OAError Unit × DB :=
  if ¬(env.authConfigured && env.subjectAuthConfigured) then
    (.error ⟨.storageUnavailable, "auth storage is not configured", none⟩, db)
  else
    let authRecord : AuthRecord :=
      { id := env.authID, status := .active, dateAdded := env.now,
        materialType := .password, materialHash := materialHash,
        expiresAt := expiresAt, metadata := metadata }
    match putAuthOp env.faults.putAuthErr db authRecord with
    | (.error k, db1) =>
      (.error ⟨.storageUnavailable, "failed to create auth record", some (.store k)⟩, db1)
    | (.ok _, db1) =>
      match putSubjectAuthOp env.faults.putSubjectAuthErr db1
        { id := env.subjectAuthID, dateAdded := env.now, subject := userID, authID := env.authID } with
      | (.error k, db2) =>
        let db3 :=
          if ¬transactional then
            (deleteAuthOp env.faults.deleteAuthErr db2 env.authID).2
          else db2
        (.error ⟨.storageUnavailable, "failed to link auth record to subject", some (.store k)⟩, db3)
      | (.ok _, db2) =>
        if env.authLogConfigured then
          let db3 := (putAuthLogOp env.faults.putAuthLogErr db2
            { id := env.logID, dateAdded := env.now, authID := env.authID,
              subject := userID, event := .validated, occurredAt := env.now }).2
          (.ok (), db3)
        else (.ok (), db2)

/-- The result of `WithAuthMaterialTx`: either the callback's
classified error, or a raw driver error from begin/commit. -/
inductive TxErr where
  | app (e : OAError)
  | raw (k : Nat)
  deriving DecidableEq, Repr

/-- `Adapter.WithAuthMaterialTx` (`pkg/storage/postgres/tx.go`): begin
a transaction, run the callback against the transactional stores, and
commit; on every exit path that is not an explicit commit the
transaction is rolled back, so the visible store is unchanged. -/
def withAuthMaterialTx (env : CreateEnv) (db : DB)
    (fn : DB → Except OAError Unit × DB) : Except TxErr Unit × DB :=
  match env.beginErr with
  | some k => (.error (.raw k), db)
  | none =>
    match fn db with
    | (.error e, _) => (.error (.app e), db)
    | (.ok _, txdb) =>
      match env.commitErr with
      | some k => (.error (.raw k), db)
      | none => (.ok (), txdb)

/-- `AuthService.CreateAuth`: configuration checks, normalization,
validation, hashing, then the three linked writes — inside one
transaction when the store exposes the `AuthMaterialTransactor`
capability, otherwise directly with saga-style compensation. An error
from the transaction keeps its kind when already classified as
storage-unavailable, invalid-credentials or unknown, and is wrapped as
storage-unavailable otherwise. -/
def createAuth (env : CreateEnv) (db : DB) (input : CreateAuthInput) : Except OAError Unit × DB :=
  if ¬(env.authConfigured && env.subjectAuthConfigured) then
    (.error ⟨.storageUnavailable, "auth storage is not configured", none⟩, db)
  else if ¬env.hasherConfigured then
    (.error ⟨.unknown, "hasher is not configured", none⟩, db)
  else
    let input' := normalizeCreate env.now input
    match validateCreate input' with
    | .error e => (.error e, db)
    | .ok _ =>
      match env.hashFn input'.value with
      | .error he => (.error ⟨.unknown, "failed to hash auth value", some (.crypto he)⟩, db)
      | .ok materialHash =>
        if env.hasTransactor then
          match withAuthMaterialTx env db
            (fun txdb => createAuthWithStores env txdb input'.userID materialHash
              input'.expiresAt input'.metadata true) with
          | (.ok _, db') => (.ok (), db')
          | (.error (.app e), db') =>
            if e.code = .storageUnavailable ∨ e.code = .invalidCredentials ∨ e.code = .unknown then
              (.error e, db')
            else
              (.error ⟨.storageUnavailable, "failed to run create auth transaction",
                some (.app e.code e.message)⟩, db')
          | (.error (.raw k), db') =>
            (.error ⟨.storageUnavailable, "failed to run create auth transaction",
              some (.store k)⟩, db')
        else
          createAuthWithStores env db input'.userID materialHash
            input'.expiresAt input'.metadata false

end Engine

namespace MemCache

/-- `cache.PrincipalSnapshot`: cached principal-shaped data. The
`Claims` values are modelled as strings. -/
structure PrincipalSnapshot where
  subject : String
  tenant : String
  roleMask : Nat
  permissionMask : Nat
  claims : List (String × String)
  expiresAt : Int
  deriving DecidableEq, Repr

/-- The zero `PrincipalSnapshot` returned on a miss. -/
def defaultSnapshot : PrincipalSnapshot :=
  { subject := "", tenant := "", roleMask := 0, permissionMask := 0, claims := [], expiresAt := 0 }

/-- `cloneSnapshot`: a copy of the snapshot with a freshly built claims
map. -/
def cloneSnapshot (s : PrincipalSnapshot) : PrincipalSnapshot :=
  { s with claims := s.claims.map (fun kv => kv) }

/-- `principalEntry`: a stored snapshot with its absolute expiry
instant. -/
structure PrincipalEntry where
  snapshot : PrincipalSnapshot
  expires : Int
  deriving DecidableEq, Repr

/-- `permissionEntry`: a stored mask with its absolute expiry
instant. -/
structure PermissionEntry where
  mask : Nat
  expires : Int
  deriving DecidableEq, Repr

/-- Map lookup of the adapter's Go maps, modelled on association
lists. -/
def lookupEntry {α : Type} (entries : List (String × α)) (key : String) : Option α :=
  (entries.find? (fun p => p.1 == key)).map (·.2)

/-- Map deletion. -/
def deleteEntry {α : Type} (entries : List (String × α)) (key : String) : List (String × α) :=
  entries.filter (fun p => p.1 != key)

/-- Map assignment (replacing any previous binding of the key). -/
def setEntry {α : Type} (entries : List (String × α)) (key : String) (v : α) : List (String × α) :=
  deleteEntry entries key ++ [(key, v)]

/-- `Adapter`: the three key spaces of the in-memory cache. The
reader/writer lock is not modelled: each operation is one atomic step
on the state. -/
structure Adapter where
  tokenEntries : List (String × PrincipalEntry)
  principalEntries : List (String × PrincipalEntry)
  permissionEntries : List (String × PermissionEntry)
  deriving DecidableEq, Repr

/-- `NewAdapter`: the empty cache. -/
def newAdapter : Adapter :=
  { tokenEntries := [], principalEntries := [], permissionEntries := [] }

/-- `validateSetInput`: a set requires a non-empty key and a positive
TTL (`1` is the required-key error, `2` is `ErrInvalidTTL`). -/
def validateSetInput (key : String) (ttl : Int) : Except Nat Unit :=
  if key = "" then .error 1
  else if ttl ≤ 0 then .error 2
  else .ok ()

/-- `Adapter.getPrincipalEntry`: the shared lookup of the token and
principal key spaces — a miss returns nothing, a hit past its expiry is
deleted (lazy eviction) and reported as a miss, a live hit is
returned. `now` is the instant `time.Now().UTC()` observed by the
call. -/
def getPrincipalEntry (now : Int) (entries : List (String × PrincipalEntry)) (key : String) :
    Option PrincipalEntry × List (String × PrincipalEntry) :=
  match lookupEntry entries key with
  | none => (none, entries)
  | some e => if e.expires < now then (none, deleteEntry entries key) else (some e, entries)

/-- `Adapter.SetToken`. -/
def setToken (now : Int) (a : Adapter) (key : String) (snapshot : PrincipalSnapshot) (ttl : Int) :
    Except Nat Unit × Adapter :=
  match validateSetInput key ttl with
  | .error k => (.error k, a)
  | .ok _ =>
    let entry : PrincipalEntry := { snapshot := cloneSnapshot snapshot, expires := now + ttl }
    (.ok (), { a with tokenEntries := setEntry a.tokenEntries key entry })

/-- `Adapter.GetToken`: result value, found flag, error (always
absent), and the possibly evicted state. -/
def getToken (now : Int) (a : Adapter) (key : String) :
    (PrincipalSnapshot × Bool × Option Nat) × Adapter :=
  match getPrincipalEntry now a.tokenEntries key with
  | (none, entries') => ((defaultSnapshot, false, none), { a with tokenEntries := entries' })
  | (some e, entries') =>
    ((cloneSnapshot e.snapshot, true, none), { a with tokenEntries := entries' })

/-- `Adapter.SetPrincipal`. -/
def setPrincipal (now : Int) (a : Adapter) (key : String) (snapshot : PrincipalSnapshot) (ttl : Int) :
    Except Nat Unit × Adapter :=
  match validateSetInput key ttl with
  | .error k => (.error k, a)
  | .ok _ =>
    let entry : PrincipalEntry := { snapshot := cloneSnapshot snapshot, expires := now + ttl }
    (.ok (), { a with principalEntries := setEntry a.principalEntries key entry })

/-- `Adapter.GetPrincipal`. -/
def getPrincipal (now : Int) (a : Adapter) (key : String) :
    (PrincipalSnapshot × Bool × Option Nat) × Adapter :=
  match getPrincipalEntry now a.principalEntries key with
  | (none, entries') => ((defaultSnapshot, false, none), { a with principalEntries := entries' })
  | (some e, entries') =>
    ((cloneSnapshot e.snapshot, true, none), { a with principalEntries := entries' })

/-- `Adapter.SetPermissionMask`. -/
def setPermissionMask (now : Int) (a : Adapter) (key : String) (mask : Nat) (ttl : Int) :
    Except Nat Unit × Adapter :=
  match validateSetInput key ttl with
  | .error k => (.error k, a)
  | .ok _ =>
    let entry : PermissionEntry := { mask := mask, expires := now + ttl }
    (.ok (), { a with permissionEntries := setEntry a.permissionEntries key entry })

/-- `Adapter.GetPermissionMask`: mask, found flag, error (always
absent), and the possibly evicted state. -/
def getPermissionMask (now : Int) (a : Adapter) (key : String) :
    (Nat × Bool × Option Nat) × Adapter :=
  match lookupEntry a.permissionEntries key with
  | none => ((0, false, none), a)
  | some e =>
    if e.expires < now then
      ((0, false, none), { a with permissionEntries := deleteEntry a.permissionEntries key })
    else ((e.mask, true, none), a)

end MemCache

namespace Crypto

/-- The malformed-encoding classes of the claim under test: a field
count other than five, a non-numeric iteration field, or a scheme or
hash-function tag differing from `pbkdf2`/`sha256`. -/
def malformedEncoding (enc : Str) : Bool :=
  match splitOnDollar enc with
  | [p0, p1, p2, _, _] =>
    (atoi p2).isNone || !(p0 == encodingScheme && p1 == hashFunction)
  | _ => true

/-- A concrete 32-byte-output compression function used to instantiate
the HMAC parameter in witnesses. -/
def wHmac : Str → Str → Str := fun _ _ => List.replicate 32 0

/-- Concrete hasher options for witnesses (one iteration, one salt
byte, one derived byte). -/
def wOptions : PBKDF2Options := { iterations := 1, saltBytes := 1, keyBytes := 1 }

/-- A concrete sampled salt for witnesses. -/
def wSalt : Str := [7]

/-- A concrete secret for witnesses. -/
def wPassword : Str := [97]

/-- The encoded hash the modelled `Hash` produces on the witness
inputs. -/
def wEncoded : Str :=
  match Hash wHmac wOptions wPassword wSalt with
  | .ok e => e
  | .error _ => []

end Crypto

namespace Engine

open Crypto (Str CryptoErr)
open Storage

/-- A concrete linkage record for counterexamples and witnesses. -/
def sampleSubjectAuth : SubjectAuthRecord :=
  { id := "sa1", dateAdded := 0, subject := "u1", authID := "a1" }

/-- A second linkage record whose subject differs from `u1`. -/
def mismatchSubjectAuth : SubjectAuthRecord :=
  { id := "sa2", dateAdded := 0, subject := "u2", authID := "a2" }

/-- A concrete active, non-expiring password record. -/
def sampleRecord : AuthRecord :=
  { id := "a1", status := .active, dateAdded := 0, materialType := .password,
    materialHash := [1, 2], expiresAt := none, metadata := [] }

/-- A concrete active password record already past its expiry at
instant 100. -/
def expiredSampleRecord : AuthRecord :=
  { id := "a1", status := .active, dateAdded := 0, materialType := .password,
    materialHash := [1, 2], expiresAt := some 50, metadata := [] }

/-- A fully configured `Authorize` environment whose stores hold the
sample record, whose hasher accepts, and whose role store fails while
the permission store would return mask 5 — exhibiting that the engine
neither consults them nor surfaces their failure. -/
def roleFailEnv : AuthorizeEnv :=
  { authConfigured := true, subjectAuthConfigured := true, hasherConfigured := true,
    roleConfigured := true, permConfigured := true, authLogConfigured := true,
    listSubjectAuth := fun _ => .ok [sampleSubjectAuth],
    getAuths := fun _ => .ok [sampleRecord],
    verify := fun _ _ => .ok true,
    getRole := fun _ _ => .error 7,
    getPermission := fun _ _ => .ok { subject := "u1", tenant := "default", permissionMask := 5 },
    now := 100, logUUID := "log1" }

/-- `roleFailEnv` with the expired sample record in the auth store and
a failing status-flip write path (the flip is best-effort). -/
def expiredEnv : AuthorizeEnv :=
  { roleFailEnv with getAuths := fun _ => .ok [expiredSampleRecord] }

/-- `roleFailEnv` with a linkage list containing a record bound to a
different subject. -/
def mismatchEnv : AuthorizeEnv :=
  { roleFailEnv with listSubjectAuth := fun _ => .ok [sampleSubjectAuth, mismatchSubjectAuth] }

/-- A concrete password `Authorize` request. -/
def samplePasswordInput : AuthInput := { userID := "u1", inputType := "password", value := [1] }

/-- A concrete token `Authorize` request (the unimplemented input
type). -/
def sampleTokenInput : AuthInput := { userID := "u1", inputType := "token", value := [1] }

/-- A fully configured, fault-free `CreateAuth` environment with a
constant hasher oracle. -/
def okCreateEnv : CreateEnv :=
  { authConfigured := true, subjectAuthConfigured := true, hasherConfigured := true,
    authLogConfigured := true, hashFn := fun _ => .ok [9], hasTransactor := false,
    faults := {}, now := 1000, authID := "a1", subjectAuthID := "s1", logID := "l1" }

/-- A concrete `CreateAuth` request with no expiry. -/
def sampleCreateInput : CreateAuthInput :=
  { userID := "u1", value := [112], expiresAt := none }

end Engine

namespace Crypto

theorem b64Alphabet_length : b64Alphabet.length = 64 := by decide

theorem b64Char_ne_dollar (v : Nat) : b64Char v ≠ dollar := by
  rcases Nat.lt_or_ge v 64 with h | h
  · revert h
    revert v
    decide
  · unfold b64Char
    rw [List.getD_eq_default]
    · decide
    · rw [b64Alphabet_length]
      exact h

theorem b64Index_b64Char (v : Nat) (h : v < 64) : b64Index (b64Char v) = some v := by
  revert h
  revert v
  decide

theorem dollar_not_mem_b64Encode (bs : Str) : dollar ∉ b64Encode bs := by
  induction bs using b64Encode.induct with
  | case1 => simp [b64Encode]
  | case2 b0 =>
    simp only [b64Encode, List.mem_cons, List.not_mem_nil, or_false]
    push_neg
    exact ⟨(b64Char_ne_dollar _).symm, (b64Char_ne_dollar _).symm⟩
  | case3 b0 b1 =>
    simp only [b64Encode, List.mem_cons, List.not_mem_nil, or_false]
    push_neg
    exact ⟨(b64Char_ne_dollar _).symm, (b64Char_ne_dollar _).symm, (b64Char_ne_dollar _).symm⟩
  | case4 b0 b1 b2 rest ih =>
    simp only [b64Encode, List.mem_cons]
    push_neg
    exact ⟨(b64Char_ne_dollar _).symm, (b64Char_ne_dollar _).symm, (b64Char_ne_dollar _).symm,
      (b64Char_ne_dollar _).symm, ih⟩

theorem b64_roundtrip (bs : Str) (h : ∀ b ∈ bs, b < 256) : b64Decode (b64Encode bs) = some bs := by
  induction bs using b64Encode.induct with
  | case1 => rfl
  | case2 b0 =>
    have h0 : b0 < 256 := h b0 (by simp)
    simp only [b64Encode, b64Decode]
    rw [b64Index_b64Char _ (by omega), b64Index_b64Char _ (by omega)]
    simp only [Option.bind_eq_bind, Option.some_bind, Option.some.injEq]
    congr 1
    omega
  | case3 b0 b1 =>
    have h0 : b0 < 256 := h b0 (by simp)
    have h1 : b1 < 256 := h b1 (by simp)
    simp only [b64Encode, b64Decode]
    rw [b64Index_b64Char _ (by omega), b64Index_b64Char _ (by omega),
      b64Index_b64Char _ (by omega)]
    simp only [Option.bind_eq_bind, Option.some_bind, Option.some.injEq]
    congr 1
    · omega
    · congr 1
      omega
  | case4 b0 b1 b2 rest ih =>
    have h0 : b0 < 256 := h b0 (by simp)
    have h1 : b1 < 256 := h b1 (by simp)
    have h2 : b2 < 256 := h b2 (by simp)
    have hrest : ∀ b ∈ rest, b < 256 := fun b hb => h b (by simp [hb])
    simp only [b64Encode, b64Decode]
    rw [b64Index_b64Char _ (by omega), b64Index_b64Char _ (by omega),
      b64Index_b64Char _ (by omega), b64Index_b64Char _ (by omega), ih hrest]
    simp only [Option.bind_eq_bind, Option.some_bind, Option.some.injEq]
    congr 1
    · omega
    · congr 1
      · omega
      · congr 1
        omega

theorem splitOnDollar_ne_nil (s : Str) : splitOnDollar s ≠ [] := by
  induction s with
  | nil => simp [splitOnDollar]
  | cons c rest ih =>
    simp only [splitOnDollar]
    cases hs : splitOnDollar rest with
    | nil => simp
    | cons g gs =>
      by_cases hc : c = dollar <;> simp [hc]

theorem splitOnDollar_no_dollar (a : Str) (h : dollar ∉ a) : splitOnDollar a = [a] := by
  induction a with
  | nil => rfl
  | cons c rest ih =>
    have hc : c ≠ dollar := fun hcd => h (by simp [hcd])
    have hrest : dollar ∉ rest := fun hm => h (by simp [hm])
    simp only [splitOnDollar, ih hrest]
    simp [hc]

theorem splitOnDollar_append (a r : Str) (h : dollar ∉ a) :
    splitOnDollar (a ++ dollar :: r) = a :: splitOnDollar r := by
  induction a with
  | nil =>
    simp only [List.nil_append, splitOnDollar]
    cases hs : splitOnDollar r with
    | nil => exact absurd hs (splitOnDollar_ne_nil r)
    | cons g gs => simp
  | cons c rest ih =>
    have hc : c ≠ dollar := fun hcd => h (by simp [hcd])
    have hrest : dollar ∉ rest := fun hm => h (by simp [hm])
    simp only [List.cons_append, splitOnDollar]
    rw [show List.append rest (dollar :: r) = rest ++ dollar :: r from rfl, ih hrest]
    simp [hc]

theorem dollar_not_mem_printNat (n : Nat) : dollar ∉ printNat n := by
  unfold printNat
  by_cases h0 : n = 0
  · rw [if_pos h0]
    decide
  · rw [if_neg h0]
    intro hm
    rcases List.mem_map.mp hm with ⟨d, _, hd⟩
    unfold dollar at hd
    omega

theorem foldr_base10 (L : List Nat) :
    L.foldr (fun d a => a * 10 + d) 0 = Nat.ofDigits 10 L := by
  induction L with
  | nil => simp [Nat.ofDigits]
  | cons d L ih =>
    simp only [List.foldr_cons, ih, Nat.ofDigits_cons]
    ring

theorem atoi_eq_of_parseDigits (s : Str) (n : Nat) (hparse : parseDigits s = some n)
    (hbytes : ∀ c ∈ s, 48 ≤ c ∧ c ≤ 57) : atoi (s) = some (n : Int) := by
  cases s with
  | nil => simp [parseDigits] at hparse
  | cons c rest =>
    have hc := hbytes c (by simp)
    have hc43 : ¬ c = 43 := by omega
    have hc45 : ¬ c = 45 := by omega
    have hdef : atoi (c :: rest) =
        (if c = 43 then (parseDigits rest).map (fun n => (n : Int))
         else if c = 45 then (parseDigits rest).map (fun n => -(n : Int))
         else (parseDigits (c :: rest)).map (fun n => (n : Int))) := rfl
    rw [hdef, if_neg hc43, if_neg hc45, hparse]
    rfl

theorem parseDigits_printNat (n : Nat) (h : 0 < n) : parseDigits (printNat n) = some n := by
  have hne : Nat.digits 10 n ≠ [] := Nat.digits_ne_nil_iff_ne_zero.mpr (by omega)
  have hlt : ∀ d ∈ Nat.digits 10 n, d < 10 := fun d hd => Nat.digits_lt_base (by norm_num) hd
  have hprint : printNat n = (Nat.digits 10 n).reverse.map (fun d => 48 + d) := by
    unfold printNat
    rw [if_neg (by omega : ¬ n = 0)]
  rw [hprint]
  have h1 : (Nat.digits 10 n).reverse.map (fun d => 48 + d) ≠ [] := by
    intro hcontra
    apply hne
    have := congrArg List.length hcontra
    simp only [List.length_map, List.length_reverse, List.length_nil] at this
    exact List.eq_nil_of_length_eq_zero this
  have h2 : ((Nat.digits 10 n).reverse.map (fun d => 48 + d)).all isDigitByte = true := by
    rw [List.all_eq_true]
    intro c hc
    rcases List.mem_map.mp hc with ⟨d, hd, hcd⟩
    have : d < 10 := hlt d (List.mem_reverse.mp hd)
    unfold isDigitByte
    subst hcd
    simp only [Bool.and_eq_true, decide_eq_true_eq]
    omega
  unfold parseDigits
  rw [if_pos ⟨h1, h2⟩]
  congr 1
  rw [List.foldl_map]
  have hfun : (fun (a : Nat) (d : Nat) => a * 10 + (48 + d - 48)) = fun a d => a * 10 + d := by
    funext a d
    omega
  rw [hfun, List.foldl_reverse, foldr_base10]
  exact Nat.ofDigits_digits 10 n

theorem printNat_bytes (n : Nat) : ∀ c ∈ printNat n, 48 ≤ c ∧ c ≤ 57 := by
  intro c hc
  unfold printNat at hc
  by_cases h0 : n = 0
  · rw [if_pos h0] at hc
    simp at hc
    omega
  · rw [if_neg h0] at hc
    rcases List.mem_map.mp hc with ⟨d, hd, hcd⟩
    have : d < 10 := Nat.digits_lt_base (by norm_num) (List.mem_reverse.mp hd)
    omega

theorem atoi_printNat (n : Nat) (h : 0 < n) : atoi (printNat n) = some (n : Int) :=
  atoi_eq_of_parseDigits _ _ (parseDigits_printNat n h) (printNat_bytes n)

theorem zipWith_xor_self_foldl (x : Str) : (List.zipWith Nat.xor x x).foldl Nat.lor 0 = 0 := by
  induction x with
  | nil => rfl
  | cons c rest ih =>
    simp only [List.zipWith_cons_cons, List.foldl_cons]
    have hx : Nat.lor 0 (Nat.xor c c) = 0 := by
      show (0 ||| (c ^^^ c)) = 0
      simp
    rw [hx]
    exact ih

theorem constantTimeCompare_self (x : Str) : constantTimeCompare x x = 1 := by
  unfold constantTimeCompare
  rw [if_pos rfl, if_pos (zipWith_xor_self_foldl x)]

theorem mem_xorBytes_lt (x y : Str) (hx : ∀ a ∈ x, a < 256) (hy : ∀ a ∈ y, a < 256) :
    ∀ a ∈ xorBytes x y, a < 256 := by
  induction x generalizing y with
  | nil => simp [xorBytes]
  | cons c rest ih =>
    cases y with
    | nil => simp [xorBytes]
    | cons d ys =>
      intro a ha
      simp only [xorBytes, List.zipWith_cons_cons, List.mem_cons] at ha
      rcases ha with rfl | ha
      · have h1 : c < 2 ^ 8 := hx c (by simp)
        have h2 : d < 2 ^ 8 := hy d (by simp)
        exact Nat.xor_lt_two_pow h1 h2
      · exact ih ys (fun a ha => hx a (by simp [ha])) (fun a ha => hy a (by simp [ha])) a ha

theorem length_xorBytes (x y : Str) : (xorBytes x y).length = min x.length y.length := by
  simp [xorBytes]

theorem iterateXor_length (hmac : Str → Str → Str) (password : Str)
    (hLen : ∀ k d, (hmac k d).length = 32) :
    ∀ n u t, u.length = 32 → t.length = 32 → (iterateXor hmac password n u t).length = 32 := by
  intro n
  induction n with
  | zero => intro u t _ ht; exact ht
  | succ k ih =>
    intro u t hu ht
    simp only [iterateXor]
    exact ih _ _ (hLen password u) (by rw [length_xorBytes, ht, hLen password u]; rfl)

theorem iterateXor_bound (hmac : Str → Str → Str) (password : Str)
    (hByte : ∀ k d, ∀ b ∈ hmac k d, b < 256) :
    ∀ n u t, (∀ b ∈ t, b < 256) → ∀ b ∈ iterateXor hmac password n u t, b < 256 := by
  intro n
  induction n with
  | zero => intro u t ht; exact ht
  | succ k ih =>
    intro u t ht
    simp only [iterateXor]
    exact ih _ _ (mem_xorBytes_lt _ _ ht (hByte password u))

theorem pbkdf2Block_length (hmac : Str → Str → Str) (password salt : Str) (iterations : Int)
    (block : Nat) (hLen : ∀ k d, (hmac k d).length = 32) :
    (pbkdf2Block hmac password salt iterations block).length = 32 := by
  unfold pbkdf2Block
  exact iterateXor_length hmac password hLen _ _ _ (hLen _ _) (hLen _ _)

theorem pbkdf2Block_bound (hmac : Str → Str → Str) (password salt : Str) (iterations : Int)
    (block : Nat) (hByte : ∀ k d, ∀ b ∈ hmac k d, b < 256) :
    ∀ b ∈ pbkdf2Block hmac password salt iterations block, b < 256 := by
  unfold pbkdf2Block
  exact iterateXor_bound hmac password hByte _ _ _ (hByte _ _)

theorem pbkdf2SHA256_length (hmac : Str → Str → Str) (password salt : Str) (iterations : Int)
    (keyLen : Nat) (hLen : ∀ k d, (hmac k d).length = 32) :
    (pbkdf2SHA256 hmac password salt iterations keyLen).length = keyLen := by
  unfold pbkdf2SHA256
  rw [List.length_take]
  have hflat : (((List.range ((keyLen + 32 - 1) / 32)).map
      (fun i => pbkdf2Block hmac password salt iterations (i + 1))).flatten).length
      = (keyLen + 32 - 1) / 32 * 32 := by
    rw [List.length_flatten]
    rw [List.map_map]
    have : ((List.range ((keyLen + 32 - 1) / 32)).map
        (List.length ∘ fun i => pbkdf2Block hmac password salt iterations (i + 1)))
        = (List.range ((keyLen + 32 - 1) / 32)).map (fun _ => 32) := by
      apply List.map_congr_left
      intro i _
      exact pbkdf2Block_length hmac password salt iterations (i + 1) hLen
    rw [this, List.map_const']
    simp [List.sum_replicate, Nat.mul_comm]
  rw [hflat]
  omega

theorem pbkdf2SHA256_bound (hmac : Str → Str → Str) (password salt : Str) (iterations : Int)
    (keyLen : Nat) (hByte : ∀ k d, ∀ b ∈ hmac k d, b < 256) :
    ∀ b ∈ pbkdf2SHA256 hmac password salt iterations keyLen, b < 256 := by
  intro b hb
  unfold pbkdf2SHA256 at hb
  have hb2 := List.take_subset _ _ hb
  rcases List.mem_flatten.mp hb2 with ⟨l, hl, hbl⟩
  rcases List.mem_map.mp hl with ⟨i, _, hli⟩
  subst hli
  exact pbkdf2Block_bound hmac password salt iterations (i + 1) hByte b hbl

theorem printInt_of_pos (i : Int) (h : 0 < i) : printInt i = printNat i.toNat := by
  unfold printInt
  rw [if_neg (by omega : ¬ i < 0)]

theorem parse_hash_encoding (iterations : Int) (hIter : 0 < iterations) (salt dk : Str)
    (hs : salt ≠ []) (hsb : ∀ b ∈ salt, b < 256) (hd : dk ≠ []) (hdb : ∀ b ∈ dk, b < 256) :
    parseEncodedHash (encodingScheme ++ dollar :: hashFunction ++ dollar :: printInt iterations ++
      dollar :: b64Encode salt ++ dollar :: b64Encode dk)
      = .ok (encodingScheme, hashFunction, iterations, salt, dk) := by
  rw [printInt_of_pos iterations hIter]
  have hsplit : splitOnDollar (encodingScheme ++ dollar :: hashFunction ++
      dollar :: printNat iterations.toNat ++ dollar :: b64Encode salt ++ dollar :: b64Encode dk)
      = [encodingScheme, hashFunction, printNat iterations.toNat, b64Encode salt, b64Encode dk] := by
    simp only [List.append_assoc, List.cons_append]
    rw [splitOnDollar_append encodingScheme _ (by decide)]
    rw [splitOnDollar_append hashFunction _ (by decide)]
    rw [splitOnDollar_append (printNat iterations.toNat) _ (dollar_not_mem_printNat iterations.toNat)]
    rw [splitOnDollar_append (b64Encode salt) _ (dollar_not_mem_b64Encode salt)]
    rw [splitOnDollar_no_dollar _ (dollar_not_mem_b64Encode dk)]
  have hatoi : atoi (printNat iterations.toNat) = some ((iterations.toNat : Nat) : Int) :=
    atoi_printNat _ (by omega)
  have htn : ((iterations.toNat : Nat) : Int) = iterations := by omega
  unfold parseEncodedHash
  rw [hsplit]
  simp only [hatoi, htn, b64_roundtrip salt hsb, b64_roundtrip dk hdb]
  rw [if_neg (by omega : ¬ iterations ≤ 0)]
  simp [hs, hd]

/-- C1: for every secret, hashing with the PBKDF2 hasher and then
verifying the same secret against the produced encoding succeeds with a
positive match. The HMAC compression function is an arbitrary function
with 32-byte byte-valued output (the invariant of HMAC-SHA-256); the
positivity of the option fields is what `NewPBKDF2Hasher` guarantees,
and the salt conditions are what `rand.Read` delivers. -/
theorem verify_hash_roundtrip
    (hmac : Str → Str → Str)
    (hLen : ∀ k d, (hmac k d).length = 32)
    (hByte : ∀ k d, ∀ b ∈ hmac k d, b < 256)
    (options : PBKDF2Options) (hIter : 0 < options.iterations) (hKey : 0 < options.keyBytes)
    (password salt : Str) (hSaltNe : salt ≠ []) (hSaltB : ∀ b ∈ salt, b < 256)
    (enc : Str) (henc : Hash hmac options password salt = .ok enc) :
    Verify hmac password enc = .ok true := by
  unfold Hash at henc
  by_cases hpw : password = []
  · rw [if_pos hpw] at henc
    exact absurd henc (by simp)
  · rw [if_neg hpw] at henc
    simp only at henc
    have henc2 : enc = encodingScheme ++ dollar :: hashFunction ++
        dollar :: printInt options.iterations ++ dollar :: b64Encode salt ++
        dollar :: b64Encode (pbkdf2SHA256 hmac password salt options.iterations options.keyBytes.toNat) := by
      injection henc with h
      exact h.symm
    have hdlen : (pbkdf2SHA256 hmac password salt options.iterations options.keyBytes.toNat).length
        = options.keyBytes.toNat :=
      pbkdf2SHA256_length hmac password salt options.iterations options.keyBytes.toNat hLen
    have hdne : pbkdf2SHA256 hmac password salt options.iterations options.keyBytes.toNat ≠ [] := by
      intro h0
      rw [h0] at hdlen
      simp only [List.length_nil] at hdlen
      omega
    have hdb := pbkdf2SHA256_bound hmac password salt options.iterations options.keyBytes.toNat hByte
    have hparse := parse_hash_encoding options.iterations hIter salt _ hSaltNe hSaltB hdne hdb
    unfold Verify
    rw [if_neg hpw, henc2, hparse]
    simp only
    rw [if_neg (by simp)]
    rw [hdlen, constantTimeCompare_self]
    rfl

/-- Witness for the hash/verify round trip: the hypotheses of
`verify_hash_roundtrip` hold of the concrete witness hasher, options,
secret and salt, and the conclusion follows by applying the theorem
there. -/
theorem verify_hash_roundtrip_witness :
    (∀ k d, (wHmac k d).length = 32) ∧ (∀ k d, ∀ b ∈ wHmac k d, b < 256) ∧
    0 < wOptions.iterations ∧ 0 < wOptions.keyBytes ∧ wSalt ≠ [] ∧ (∀ b ∈ wSalt, b < 256) ∧
    Hash wHmac wOptions wPassword wSalt = .ok wEncoded ∧
    Verify wHmac wPassword wEncoded = .ok true :=
  ⟨fun _ _ => by simp [wHmac],
   fun _ _ b hb => by
     simp [wHmac] at hb
     omega,
   by decide, by decide, by decide, by decide, rfl,
   verify_hash_roundtrip wHmac
     (fun _ _ => by simp [wHmac])
     (fun _ _ b hb => by
       simp [wHmac] at hb
       omega)
     wOptions (by decide) (by decide) wPassword wSalt (by decide) (by decide)
     wEncoded rfl⟩

/-- C10: `Verify` with the empty string as the secret returns the
invalid-config error for every encoded hash, well-formed or not — never
a boolean result. -/
theorem verify_empty_secret (hmac : Str → Str → Str) (encodedHash : Str) :
    Verify hmac [] encodedHash = .error .invalidConfig := by
  unfold Verify
  rw [if_pos rfl]

/-- C5: on every encoding that is malformed in one of the claim's
senses — not exactly five dollar-delimited fields, a non-numeric
iteration field, or a scheme/hash-function tag mismatch — `Verify`
returns the typed invalid-hash error and never a boolean match result
(the secret is non-empty, as an empty secret is rejected earlier as a
configuration error). -/
theorem verify_malformed (hmac : Str → Str → Str) (password enc : Str)
    (hpw : password ≠ []) (hmal : malformedEncoding enc = true) :
    Verify hmac password enc = .error .invalidHash := by
  unfold Verify
  rw [if_neg hpw]
  unfold malformedEncoding at hmal
  unfold parseEncodedHash
  rcases h5 : splitOnDollar enc with _ | ⟨p0, _ | ⟨p1, _ | ⟨p2, _ | ⟨p3, _ | ⟨p4, _ | ⟨p5, ps⟩⟩⟩⟩⟩⟩
  · simp [h5]
  · simp [h5]
  · simp [h5]
  · simp [h5]
  · simp [h5]
  · rw [h5] at hmal
    simp only at hmal
    rcases hat : atoi p2 with _ | it
    · simp [h5, hat]
    · rw [hat] at hmal
      simp only [Option.isNone_some, Bool.false_or, Bool.not_eq_true', Bool.and_eq_false_iff,
        beq_eq_false_iff_ne, ne_eq] at hmal
      by_cases hit : it ≤ 0
      · simp [h5, hat, hit]
      · rcases hd3 : b64Decode p3 with _ | salt
        · simp [h5, hat, hit, hd3]
        · by_cases hsa : salt = []
          · simp [h5, hat, hit, hd3, hsa]
          · rcases hd4 : b64Decode p4 with _ | dk
            · simp [h5, hat, hit, hd3, hsa, hd4]
            · by_cases hdk : dk = []
              · simp [h5, hat, hit, hd3, hsa, hd4, hdk]
              · simp only [h5, hat, hd3, hd4]
                rw [if_neg hit, if_neg hsa, if_neg hdk]
                show (if p0 ≠ encodingScheme ∨ p1 ≠ hashFunction
                    then (Except.error CryptoErr.invalidHash : Except CryptoErr Bool)
                    else .ok (constantTimeCompare
                      (pbkdf2SHA256 hmac password salt it dk.length) dk == 1))
                  = .error .invalidHash
                rw [if_pos hmal]
  · simp [h5]

/-- Witness for `verify_malformed`: the one-field encoding `a` with the
non-empty secret `a` is rejected as an invalid hash. -/
theorem verify_malformed_witness :
    ([97] : Str) ≠ [] ∧ malformedEncoding [97] = true ∧
    Verify wHmac [97] [97] = .error .invalidHash :=
  ⟨by decide, by decide, verify_malformed wHmac [97] [97] (by decide) (by decide)⟩

end Crypto

namespace Engine

open Crypto (Str CryptoErr)
open Storage

theorem find?_mismatch_none (subs : List SubjectAuthRecord) (userID : String)
    (hmatch : ∀ s ∈ subs, s.subject = userID) :
    subs.find? (fun s => s.subject != userID) = none := by
  apply List.find?_eq_none.mpr
  intro s hs
  simp [hmatch s hs]

theorem length_not_lt_one (subs : List SubjectAuthRecord) (hne : subs ≠ []) :
    ¬ subs.length < 1 := by
  cases subs with
  | nil => exact absurd rfl hne
  | cons a l => simp

/-- The full evaluation of `Authorize` on the successful password path:
the call returns a `Principal` with tenant `default`, zero role and
permission masks and `AuthenticatedAt` the call instant, and the trace
holds exactly the linkage list, the bulk fetch, the hasher call and
(when the log store is configured) the audit append — in particular no
role or permission lookup. -/
theorem authorize_success_eval (env : AuthorizeEnv) (input : AuthInput)
    (subs : List SubjectAuthRecord) (records : List AuthRecord) (record : AuthRecord)
    (h1 : env.authConfigured = true) (h2 : env.subjectAuthConfigured = true)
    (h3 : env.hasherConfigured = true) (h4 : env.roleConfigured = true)
    (h5 : env.permConfigured = true)
    (hlist : env.listSubjectAuth input.userID = .ok subs)
    (hne : subs ≠ [])
    (hmatch : ∀ s ∈ subs, s.subject = input.userID)
    (hrecs : env.getAuths (subs.map (·.authID)) = .ok records)
    (hmt : getMaterialType input.inputType = some .password)
    (hsel : records.find? (fun r => r.materialType == AuthMaterialType.password
      && r.status == AuthStatus.active) = some record)
    (hnexp : ∀ exp, record.expiresAt = some exp → ¬ exp < env.now)
    (hver : env.verify input.value record.materialHash = .ok true) :
    authorize env input =
      (.ok { subject := input.userID, tenant := "default", roleMask := 0,
             permissionMask := 0, authenticatedAt := env.now },
       [Effect.listCall input.userID, Effect.getAuthsCall (subs.map (·.authID))] ++
         [Effect.verifyCall input.value record.materialHash] ++
         (if env.authLogConfigured then [Effect.putAuthLogCall { id := env.logUUID, dateAdded := env.now, authID := record.id, subject := input.userID, event := .used, occurredAt := env.now }] else [])) := by
  have hfind := find?_mismatch_none subs input.userID hmatch
  have hlen := length_not_lt_one subs hne
  unfold authorize authorizeVerify
  rw [h1, h2, h3, h4, h5, hlist]
  simp only [Bool.and_self, Bool.not_true, Bool.false_eq_true, if_false,
    if_neg hlen, hfind, hrecs, hmt, hsel]
  rcases hexp : record.expiresAt with _ | exp
  · simp only [hver]
    simp
  · simp only [if_neg (hnexp exp hexp), hver]
    simp

/-- C2 counterexample: on a successful password authorization with a
role store that fails and a permission store holding mask 5, `Authorize`
still succeeds, returns a `Principal` with both masks zero, and never
invokes the role or permission collaborator — the role/permission
lookup of the spec is commented out in the engine, so its failure is
not surfaced and its masks are not carried. -/
theorem authorize_role_lookup_counterexample :
    (authorize roleFailEnv samplePasswordInput).1
      = .ok { subject := "u1", tenant := "default", roleMask := 0,
              permissionMask := 0, authenticatedAt := 100 }
    ∧ (authorize roleFailEnv samplePasswordInput).2
      = [.listCall "u1", .getAuthsCall ["a1"], .verifyCall [1] [1, 2], .putAuthLogCall { id := "log1", dateAdded := 100, authID := "a1", subject := "u1", event := .used, occurredAt := 100 }]
    ∧ roleFailEnv.getRole "u1" "default" = .error 7
    ∧ roleFailEnv.getPermission "u1" "default"
      = .ok { subject := "u1", tenant := "default", permissionMask := 5 } :=
  ⟨rfl, rfl, rfl, rfl⟩

/-- C2 (amended): on a successful `Authorize` the engine returns a
`Principal` for the fixed tenant `default` whose `RoleMask` and
`PermissionMask` are zero, and the role/permission collaborators are
never invoked (the lookup is commented out in the source), so no
role/permission-lookup failure can arise. -/
theorem authorize_success_zero_masks (env : AuthorizeEnv) (input : AuthInput)
    (subs : List SubjectAuthRecord) (records : List AuthRecord) (record : AuthRecord)
    (h1 : env.authConfigured = true) (h2 : env.subjectAuthConfigured = true)
    (h3 : env.hasherConfigured = true) (h4 : env.roleConfigured = true)
    (h5 : env.permConfigured = true)
    (hlist : env.listSubjectAuth input.userID = .ok subs)
    (hne : subs ≠ [])
    (hmatch : ∀ s ∈ subs, s.subject = input.userID)
    (hrecs : env.getAuths (subs.map (·.authID)) = .ok records)
    (hmt : getMaterialType input.inputType = some .password)
    (hsel : records.find? (fun r => r.materialType == AuthMaterialType.password
      && r.status == AuthStatus.active) = some record)
    (hnexp : ∀ exp, record.expiresAt = some exp → ¬ exp < env.now)
    (hver : env.verify input.value record.materialHash = .ok true) :
    (authorize env input).1 = .ok { subject := input.userID, tenant := "default", roleMask := 0, permissionMask := 0, authenticatedAt := env.now }
    ∧ (∀ s t, Effect.getRoleCall s t ∉ (authorize env input).2)
    ∧ (∀ s t, Effect.getPermissionCall s t ∉ (authorize env input).2) := by
  have hcall := authorize_success_eval env input subs records record h1 h2 h3 h4 h5
    hlist hne hmatch hrecs hmt hsel hnexp hver
  rw [hcall]
  refine ⟨rfl, ?_, ?_⟩
  · intro s t hmem
    rcases hlog : env.authLogConfigured <;> simp [hlog] at hmem
  · intro s t hmem
    rcases hlog : env.authLogConfigured <;> simp [hlog] at hmem

/-- Witness for `authorize_success_zero_masks` at the concrete
environment with a failing role store. -/
theorem authorize_success_zero_masks_witness :
    roleFailEnv.listSubjectAuth "u1" = .ok [sampleSubjectAuth]
    ∧ (∀ s ∈ [sampleSubjectAuth], s.subject = "u1")
    ∧ roleFailEnv.getAuths ["a1"] = .ok [sampleRecord]
    ∧ (authorize roleFailEnv samplePasswordInput).1
      = .ok { subject := "u1", tenant := "default", roleMask := 0,
              permissionMask := 0, authenticatedAt := 100 }
    ∧ (∀ s t, Effect.getRoleCall s t ∉ (authorize roleFailEnv samplePasswordInput).2) := by
  refine ⟨rfl, by decide, rfl, ?_, ?_⟩
  · exact (authorize_success_zero_masks roleFailEnv samplePasswordInput
      [sampleSubjectAuth] [sampleRecord] sampleRecord rfl rfl rfl rfl rfl rfl
      (by decide) (by decide) rfl rfl rfl (fun exp hexp => by simp [sampleRecord] at hexp) rfl).1
  · exact (authorize_success_zero_masks roleFailEnv samplePasswordInput
      [sampleSubjectAuth] [sampleRecord] sampleRecord rfl rfl rfl rfl rfl rfl
      (by decide) (by decide) rfl rfl rfl (fun exp hexp => by simp [sampleRecord] at hexp) rfl).2.1

/-- C4: when the selected active record carries an expiry in the past,
`Authorize` issues the best-effort write of the record with its status
flipped to `expired` (its outcome is never consulted, so a persistence
failure cannot fail the call) and returns the credentials-expired error;
the trace contains no hasher invocation. -/
theorem authorize_expired_flip (env : AuthorizeEnv) (input : AuthInput)
    (subs : List SubjectAuthRecord) (records : List AuthRecord) (record : AuthRecord) (exp : Int)
    (h1 : env.authConfigured = true) (h2 : env.subjectAuthConfigured = true)
    (h3 : env.hasherConfigured = true) (h4 : env.roleConfigured = true)
    (h5 : env.permConfigured = true)
    (hlist : env.listSubjectAuth input.userID = .ok subs)
    (hne : subs ≠ [])
    (hmatch : ∀ s ∈ subs, s.subject = input.userID)
    (hrecs : env.getAuths (subs.map (·.authID)) = .ok records)
    (hmt : getMaterialType input.inputType = some .password)
    (hsel : records.find? (fun r => r.materialType == AuthMaterialType.password
      && r.status == AuthStatus.active) = some record)
    (hexp : record.expiresAt = some exp) (hpast : exp < env.now) :
    (authorize env input).1 = .error { code := .credentialsExpired, message := "credentials have expired", cause := none }
    ∧ (authorize env input).2 = [.listCall input.userID, .getAuthsCall (subs.map (·.authID)), .putAuthCall { record with status := AuthStatus.expired }] := by
  have hfind := find?_mismatch_none subs input.userID hmatch
  have hlen := length_not_lt_one subs hne
  have hcall : authorize env input =
      (.error { code := .credentialsExpired, message := "credentials have expired", cause := none },
       [.listCall input.userID, .getAuthsCall (subs.map (·.authID)), .putAuthCall { record with status := AuthStatus.expired }]) := by
    unfold authorize
    rw [h1, h2, h3, h4, h5, hlist]
    simp only [Bool.and_self, Bool.not_true, Bool.false_eq_true, if_false,
      if_neg hlen, hfind, hrecs, hmt, hsel, hexp]
    simp only [if_pos hpast]
    simp
  rw [hcall]
  exact ⟨rfl, rfl⟩

/-- Witness for `authorize_expired_flip` at the concrete environment
holding the expired sample record. -/
theorem authorize_expired_flip_witness :
    expiredEnv.getAuths ["a1"] = .ok [expiredSampleRecord]
    ∧ expiredSampleRecord.expiresAt = some 50 ∧ (50 : Int) < expiredEnv.now
    ∧ (authorize expiredEnv samplePasswordInput).1 = .error { code := .credentialsExpired, message := "credentials have expired", cause := none }
    ∧ (authorize expiredEnv samplePasswordInput).2 = [.listCall "u1", .getAuthsCall ["a1"], .putAuthCall { expiredSampleRecord with status := AuthStatus.expired }] := by
  refine ⟨rfl, rfl, by decide, ?_, ?_⟩
  · exact (authorize_expired_flip expiredEnv samplePasswordInput [sampleSubjectAuth]
      [expiredSampleRecord] expiredSampleRecord 50 rfl rfl rfl rfl rfl rfl
      (by decide) (by decide) rfl rfl rfl rfl (by decide)).1
  · exact (authorize_expired_flip expiredEnv samplePasswordInput [sampleSubjectAuth]
      [expiredSampleRecord] expiredSampleRecord 50 rfl rfl rfl rfl rfl rfl
      (by decide) (by decide) rfl rfl rfl rfl (by decide)).2

/-- C7: when any linkage returned for the requested subject carries a
different `Subject`, `Authorize` returns the invalid-credentials
integrity error (the mismatch is never dropped, and the call is a total
function, so it cannot crash). -/
theorem authorize_subject_mismatch (env : AuthorizeEnv) (input : AuthInput)
    (subs : List SubjectAuthRecord) (s0 : SubjectAuthRecord)
    (h1 : env.authConfigured = true) (h2 : env.subjectAuthConfigured = true)
    (h3 : env.hasherConfigured = true) (h4 : env.roleConfigured = true)
    (h5 : env.permConfigured = true)
    (hlist : env.listSubjectAuth input.userID = .ok subs)
    (hmem : s0 ∈ subs) (hmm : s0.subject ≠ input.userID) :
    (authorize env input).1 = .error { code := .invalidCredentials, message := "multiple auth records found for different user_ids", cause := none } := by
  have hne : subs ≠ [] := by
    intro h0
    rw [h0] at hmem
    exact absurd hmem (List.not_mem_nil s0)
  have hlen := length_not_lt_one subs hne
  have hsome : (subs.find? (fun s => s.subject != input.userID)).isSome := by
    rw [List.find?_isSome]
    exact ⟨s0, hmem, by simp [hmm]⟩
  rcases Option.isSome_iff_exists.mp hsome with ⟨x, hx⟩
  unfold authorize
  rw [h1, h2, h3, h4, h5, hlist]
  simp only [Bool.and_self, Bool.not_true, Bool.false_eq_true, if_false, if_neg hlen, hx]
  simp

/-- Witness for `authorize_subject_mismatch`: a linkage list holding a
record bound to subject `u2` while `u1` authenticates. -/
theorem authorize_subject_mismatch_witness :
    mismatchEnv.listSubjectAuth "u1" = .ok [sampleSubjectAuth, mismatchSubjectAuth]
    ∧ mismatchSubjectAuth ∈ [sampleSubjectAuth, mismatchSubjectAuth]
    ∧ mismatchSubjectAuth.subject ≠ "u1"
    ∧ (authorize mismatchEnv samplePasswordInput).1 = .error { code := .invalidCredentials, message := "multiple auth records found for different user_ids", cause := none } :=
  ⟨rfl, by decide, by decide,
   authorize_subject_mismatch mismatchEnv samplePasswordInput
     [sampleSubjectAuth, mismatchSubjectAuth] mismatchSubjectAuth
     rfl rfl rfl rfl rfl rfl (by decide) (by decide)⟩

/-- C8 counterexample: an `Authorize` call with the unsupported `token`
input type is rejected with the invalid-credentials kind — not the
not-implemented kind the claim asserts — before any fetched record is
inspected (the trace ends with the bulk fetch). -/
theorem authorize_unsupported_type_counterexample :
    (authorize roleFailEnv sampleTokenInput).1 = .error { code := .invalidCredentials, message := "unsupported auth input type", cause := none }
    ∧ (authorize roleFailEnv sampleTokenInput).2 = [.listCall "u1", .getAuthsCall ["a1"]]
    ∧ ErrCode.invalidCredentials ≠ ErrCode.notImplemented :=
  ⟨rfl, rfl, by decide⟩

/-- C8 (amended): an input type that does not map to a supported
material type is rejected before inspecting any fetched record — the
trace stops at the bulk fetch, with no hasher call, no status write and
no audit append — and the error carries the invalid-credentials kind
(the not-implemented kind appears only in the verification switch,
which is unreachable for unmapped input types). -/
theorem authorize_unsupported_type_kind (env : AuthorizeEnv) (input : AuthInput)
    (subs : List SubjectAuthRecord) (records : List AuthRecord)
    (h1 : env.authConfigured = true) (h2 : env.subjectAuthConfigured = true)
    (h3 : env.hasherConfigured = true) (h4 : env.roleConfigured = true)
    (h5 : env.permConfigured = true)
    (hlist : env.listSubjectAuth input.userID = .ok subs)
    (hne : subs ≠ [])
    (hmatch : ∀ s ∈ subs, s.subject = input.userID)
    (hrecs : env.getAuths (subs.map (·.authID)) = .ok records)
    (hmt : getMaterialType input.inputType = none) :
    (authorize env input).1 = .error { code := .invalidCredentials, message := "unsupported auth input type", cause := none }
    ∧ (authorize env input).2 = [.listCall input.userID, .getAuthsCall (subs.map (·.authID))] := by
  have hfind := find?_mismatch_none subs input.userID hmatch
  have hlen := length_not_lt_one subs hne
  have hcall : authorize env input =
      (.error { code := .invalidCredentials, message := "unsupported auth input type", cause := none },
       [.listCall input.userID, .getAuthsCall (subs.map (·.authID))]) := by
    unfold authorize
    rw [h1, h2, h3, h4, h5, hlist]
    simp only [Bool.and_self, Bool.not_true, Bool.false_eq_true, if_false,
      if_neg hlen, hfind, hrecs, hmt]
    simp
  rw [hcall]
  exact ⟨rfl, rfl⟩

/-- Witness for `authorize_unsupported_type_kind` at the concrete token
input. -/
theorem authorize_unsupported_type_kind_witness :
    getMaterialType "token" = none
    ∧ (authorize roleFailEnv sampleTokenInput).1 = .error { code := .invalidCredentials, message := "unsupported auth input type", cause := none } :=
  ⟨by decide,
   (authorize_unsupported_type_kind roleFailEnv sampleTokenInput [sampleSubjectAuth]
     [sampleRecord] rfl rfl rfl rfl rfl rfl (by decide) (by decide) rfl rfl).1⟩

/-- C3: atomicity of the `CreateAuth` unit.
(a) On a transactional store, a failing SubjectAuth write aborts the
transaction: the visible store is exactly the initial one (zero new
AuthMaterial and zero new SubjectAuth rows) and the error keeps the
storage-unavailable kind wrapping the adapter cause.
(b) On a non-transactional store, a failing SubjectAuth write triggers
the compensating delete of the just-created AuthMaterial record: the
visible store is again the initial one (the new record is gone, the old
rows survive) and the returned error wraps the original adapter error
as its cause, per the propagation policy.
(c) A failing AuthLog write never aborts the unit, in either mode. -/
theorem createAuth_atomicity (env : CreateEnv) (db : DB) (input : CreateAuthInput) (e : Nat)
    (hAuth : env.authConfigured = true) (hSubj : env.subjectAuthConfigured = true)
    (hHasher : env.hasherConfigured = true) (hLog : env.authLogConfigured = true)
    (hBegin : env.beginErr = none) (hCommit : env.commitErr = none)
    (hPutAuth : env.faults.putAuthErr = none)
    (hValid : validateCreate (normalizeCreate env.now input) = .ok ())
    (mh : Crypto.Str) (hHash : env.hashFn (normalizeCreate env.now input).value = .ok mh)
    (hFresh : ∀ r ∈ db.auths, r.id ≠ env.authID) :
    createAuth { env with hasTransactor := true, faults := { env.faults with putSubjectAuthErr := some e } } db input = (.error { code := .storageUnavailable, message := "failed to link auth record to subject", cause := some (.store e) }, db)
    ∧ createAuth { env with hasTransactor := false, faults := { env.faults with putSubjectAuthErr := some e, deleteAuthErr := none } } db input = (.error { code := .storageUnavailable, message := "failed to link auth record to subject", cause := some (.store e) }, db)
    ∧ (createAuth { env with hasTransactor := false, faults := { env.faults with putSubjectAuthErr := none, putAuthLogErr := some e } } db input).1 = .ok ()
    ∧ (createAuth { env with hasTransactor := true, faults := { env.faults with putSubjectAuthErr := none, putAuthLogErr := some e } } db input).1 = .ok () := by
  have hfilter : ∀ mhash exphash meta, (db.auths ++ [{ id := env.authID, status := .active, dateAdded := env.now, materialType := .password, materialHash := mhash, expiresAt := exphash, metadata := meta : AuthRecord }]).filter (fun r => r.id != env.authID) = db.auths := by
    intro mhash exphash meta
    rw [List.filter_append]
    have h1 : db.auths.filter (fun r => r.id != env.authID) = db.auths :=
      List.filter_eq_self.mpr (fun r hr => by simp [hFresh r hr])
    have h2 : List.filter (fun (r : AuthRecord) => r.id != env.authID) [{ id := env.authID, status := .active, dateAdded := env.now, materialType := .password, materialHash := mhash, expiresAt := exphash, metadata := meta : AuthRecord }] = [] := by
      simp
    rw [h1, h2, List.append_nil]
  refine ⟨?_, ?_, ?_, ?_⟩
  · simp only [createAuth, createAuthWithStores, withAuthMaterialTx, putAuthOp, putSubjectAuthOp,
      putAuthLogOp, deleteAuthOp, hAuth, hSubj, hHasher, hLog, hBegin, hCommit, hPutAuth,
      hValid, hHash]
    simp
  · simp only [createAuth, createAuthWithStores, withAuthMaterialTx, putAuthOp, putSubjectAuthOp,
      putAuthLogOp, deleteAuthOp, hAuth, hSubj, hHasher, hLog, hBegin, hCommit, hPutAuth,
      hValid, hHash]
    simp only [Bool.and_self, Bool.not_true, Bool.false_eq_true, if_false, Bool.not_false, if_true]
    rw [hfilter]
    simp
  · simp only [createAuth, createAuthWithStores, withAuthMaterialTx, putAuthOp, putSubjectAuthOp,
      putAuthLogOp, deleteAuthOp, hAuth, hSubj, hHasher, hLog, hBegin, hCommit, hPutAuth,
      hValid, hHash]
    simp
  · simp only [createAuth, createAuthWithStores, withAuthMaterialTx, putAuthOp, putSubjectAuthOp,
      putAuthLogOp, deleteAuthOp, hAuth, hSubj, hHasher, hLog, hBegin, hCommit, hPutAuth,
      hValid, hHash]
    simp

/-- Witness for `createAuth_atomicity` at the concrete fault-free
environment, empty store and sample input with injected adapter error
3. -/
theorem createAuth_atomicity_witness :
    validateCreate (normalizeCreate okCreateEnv.now sampleCreateInput) = .ok ()
    ∧ okCreateEnv.hashFn (normalizeCreate okCreateEnv.now sampleCreateInput).value = .ok [9]
    ∧ createAuth { okCreateEnv with hasTransactor := true, faults := { okCreateEnv.faults with putSubjectAuthErr := some 3 } } emptyDB sampleCreateInput = (.error { code := .storageUnavailable, message := "failed to link auth record to subject", cause := some (.store 3) }, emptyDB)
    ∧ createAuth { okCreateEnv with hasTransactor := false, faults := { okCreateEnv.faults with putSubjectAuthErr := some 3, deleteAuthErr := none } } emptyDB sampleCreateInput = (.error { code := .storageUnavailable, message := "failed to link auth record to subject", cause := some (.store 3) }, emptyDB)
    ∧ (createAuth { okCreateEnv with hasTransactor := false, faults := { okCreateEnv.faults with putSubjectAuthErr := none, putAuthLogErr := some 3 } } emptyDB sampleCreateInput).1 = .ok () := by
  have h := createAuth_atomicity okCreateEnv emptyDB sampleCreateInput 3
    rfl rfl rfl rfl rfl rfl rfl rfl [9] rfl (by simp [emptyDB])
  exact ⟨rfl, rfl, h.1, h.2.1, h.2.2.1⟩

/-- C6 (the code at the failing input): `CreateAuth` with no requested
expiry succeeds and persists a password AuthMaterial record whose
`ExpiresAt` is absent, although the `password_basic` persistence policy
declares `AllowNonExpiring = false` — the engine never consults the
policy matrix on this path, so the spec's non-expiring invariant is not
enforced. -/
theorem createAuth_nonexpiring_violation :
    (createAuth okCreateEnv emptyDB sampleCreateInput).1 = .ok ()
    ∧ (createAuth okCreateEnv emptyDB sampleCreateInput).2.auths = [{ id := "a1", status := .active, dateAdded := 1000, materialType := .password, materialHash := [9], expiresAt := none, metadata := [] }]
    ∧ (Storage.defaultPersistencePolicies .passwordBasic).map (fun p => p.allowNonExpiring) = some false
    ∧ ((createAuth okCreateEnv emptyDB sampleCreateInput).2.auths.all (fun r => r.materialType == Storage.AuthMaterialType.password && (r.expiresAt == none))) = true :=
  ⟨rfl, rfl, rfl, rfl⟩

end Engine

namespace MemCache

theorem lookup_deleteEntry {α : Type} (l : List (String × α)) (k : String) :
    lookupEntry (deleteEntry l k) k = none := by
  induction l with
  | nil => rfl
  | cons p rest ih =>
    by_cases h : p.1 = k
    · simp only [deleteEntry, List.filter_cons, h]
      simp only [bne_self_eq_false, if_false, Bool.false_eq_true]
      exact ih
    · simp only [deleteEntry, List.filter_cons] at ih ⊢
      rw [show (p.1 != k) = true by simp [h]]
      unfold lookupEntry
      simp only [List.find?, show (p.1 == k) = false by simp [h]]
      exact ih

theorem lookup_append_single {α : Type} (m : List (String × α)) (k : String) (v : α)
    (hm : lookupEntry m k = none) : lookupEntry (m ++ [(k, v)]) k = some v := by
  induction m with
  | nil => simp [lookupEntry]
  | cons p rest ih =>
    by_cases h : p.1 = k
    · exfalso
      unfold lookupEntry at hm
      simp [List.find?, h] at hm
    · unfold lookupEntry at hm ⊢
      simp only [List.cons_append, List.find?, h]
      simp only [List.find?] at hm
      rw [show (p.1 == k) = false by simp [h]] at hm ⊢
      exact ih hm

theorem lookup_setEntry {α : Type} (l : List (String × α)) (k : String) (v : α) :
    lookupEntry (setEntry l k v) k = some v :=
  lookup_append_single _ k v (lookup_deleteEntry l k)

theorem cloneSnapshot_eq (s : PrincipalSnapshot) : cloneSnapshot s = s := by
  cases s
  simp [cloneSnapshot]

/-- C9: for each of the three key spaces of the in-memory cache, a get
strictly after the entry's TTL has elapsed returns a miss (found =
false, no error) and removes the expired entry from the map — lazy
eviction — while a get strictly before the TTL elapses returns the
stored value with found = true. -/
theorem memcache_ttl_lazy_eviction (a : Adapter) (key : String) (snap : PrincipalSnapshot)
    (mask : Nat) (ttl now0 now1 now2 : Int)
    (hkey : key ≠ "") (httl : 0 < ttl)
    (hafter : now0 + ttl < now1) (hbefore : now2 < now0 + ttl) :
    ((getToken now1 (setToken now0 a key snap ttl).2 key).1 = (defaultSnapshot, false, none)
      ∧ lookupEntry (getToken now1 (setToken now0 a key snap ttl).2 key).2.tokenEntries key = none
      ∧ (getToken now2 (setToken now0 a key snap ttl).2 key).1 = (snap, true, none))
    ∧ ((getPrincipal now1 (setPrincipal now0 a key snap ttl).2 key).1 = (defaultSnapshot, false, none)
      ∧ lookupEntry (getPrincipal now1 (setPrincipal now0 a key snap ttl).2 key).2.principalEntries key = none
      ∧ (getPrincipal now2 (setPrincipal now0 a key snap ttl).2 key).1 = (snap, true, none))
    ∧ ((getPermissionMask now1 (setPermissionMask now0 a key mask ttl).2 key).1 = (0, false, none)
      ∧ lookupEntry (getPermissionMask now1 (setPermissionMask now0 a key mask ttl).2 key).2.permissionEntries key = none
      ∧ (getPermissionMask now2 (setPermissionMask now0 a key mask ttl).2 key).1 = (mask, true, none)) := by
  have hvalid : validateSetInput key ttl = .ok () := by
    unfold validateSetInput
    rw [if_neg hkey, if_neg (by omega : ¬ ttl ≤ 0)]
  have hnb : ¬ (now0 + ttl < now2) := by omega
  refine ⟨⟨?_, ?_, ?_⟩, ⟨?_, ?_, ?_⟩, ⟨?_, ?_, ?_⟩⟩
  · simp only [setToken, hvalid, getToken, getPrincipalEntry, lookup_setEntry, if_pos hafter]
  · simp only [setToken, hvalid, getToken, getPrincipalEntry, lookup_setEntry, if_pos hafter]
    exact lookup_deleteEntry _ key
  · simp only [setToken, hvalid, getToken, getPrincipalEntry, lookup_setEntry, if_neg hnb,
      cloneSnapshot_eq]
  · simp only [setPrincipal, hvalid, getPrincipal, getPrincipalEntry, lookup_setEntry,
      if_pos hafter]
  · simp only [setPrincipal, hvalid, getPrincipal, getPrincipalEntry, lookup_setEntry,
      if_pos hafter]
    exact lookup_deleteEntry _ key
  · simp only [setPrincipal, hvalid, getPrincipal, getPrincipalEntry, lookup_setEntry,
      if_neg hnb, cloneSnapshot_eq]
  · simp only [setPermissionMask, hvalid, getPermissionMask, lookup_setEntry, if_pos hafter]
  · simp only [setPermissionMask, hvalid, getPermissionMask, lookup_setEntry, if_pos hafter]
    exact lookup_deleteEntry _ key
  · simp only [setPermissionMask, hvalid, getPermissionMask, lookup_setEntry, if_neg hnb]

/-- Witness for `memcache_ttl_lazy_eviction` at a concrete key,
snapshot, mask and TTL. -/
theorem memcache_ttl_lazy_eviction_witness :
    ("k" : String) ≠ "" ∧ (0 : Int) < 10 ∧ (0 : Int) + 10 < 11 ∧ (5 : Int) < 0 + 10
    ∧ (getToken 11 (setToken 0 newAdapter "k" defaultSnapshot 10).2 "k").1 = (defaultSnapshot, false, none)
    ∧ (getPermissionMask 5 (setPermissionMask 0 newAdapter "k" 7 10).2 "k").1 = (7, true, none) := by
  have h := memcache_ttl_lazy_eviction newAdapter "k" defaultSnapshot 7 10 0 11 5
    (by decide) (by decide) (by decide) (by decide)
  exact ⟨by decide, by decide, by decide, by decide, h.1.1, h.2.2.2.2⟩

end MemCache

end OpenAuth
